import Mathlib

/-!
Shallow embedding of the `creative-coding` repository (src/main.rs, src/world.rs):
a player that follows the mouse, 500 randomly wandering enemies, axis-aligned
bounding-box collision detection, boundary clamping and a click-to-reset rule.

Modelling choices:
* `f32` values are embedded as exact rationals `ℚ`.
* nannou's ambient random number generator is modelled as a stream
  `g : ℕ → ℚ` of unit-interval draws together with an explicit cursor `n`;
  `random_range(lo, hi)` at cursor `n` returns `lo + g n * (hi - lo)` and
  advances the cursor.  Each source call site consumes a statically known
  number of draws, so the cursor can be threaded by arithmetic on indices,
  following the sequential evaluation order of the Rust code.
* `nannou::App` is embedded as the data the world code reads from it:
  mouse coordinates, the left-button state, and the window rectangle.
-/

namespace CreativeCoding

/-- The ambient random source: an infinite stream of draws in the unit interval. -/
abbrev Rng := ℕ → ℚ

/-- The contract of the random source: every draw lies in `[0,1)`. -/
def RngOk (g : Rng) : Prop := ∀ m, 0 ≤ g m ∧ g m < 1

/-- Model of `random_range(lo, hi)` applied to a single unit draw `r`:
uniform sampling from `[lo, hi)` is modelled as `lo + r * (hi - lo)`. -/
def randomRange (r lo hi : ℚ) : ℚ := lo + r * (hi - lo)

/-- The 2D coordinates of an entity (`struct Position`). -/
structure Position where
  x : ℚ
  y : ℚ
deriving DecidableEq

/-- An RGB color, `nannou::color::Rgb`, embedded as its three channels. -/
structure Rgb where
  red : ℚ
  green : ℚ
  blue : ℚ
deriving DecidableEq

/-- The `struct Player`: plays, learns, and evolves. -/
structure Player where
  position : Position
  radius : ℚ
  color : Rgb
  alive : Bool
deriving DecidableEq

/-- The `impl Default for Player` constants. -/
def Player.default : Player :=
  { position := ⟨0, 0⟩
    radius := 5
    color := ⟨255, 255, 255⟩
    alive := true }

/-- The `struct Enemy`: obstacle to Player. -/
structure Enemy where
  position : Position
  radius : ℚ
  color : Rgb
  alive : Bool
deriving DecidableEq

/-- The `impl Default for Enemy` constants. -/
def Enemy.default : Enemy :=
  { position := ⟨0, 0⟩
    radius := 5
    color := ⟨255, 0, 0⟩
    alive := true }

/-- The `struct World`: keeps track of all entities, the player and their enemies. -/
structure World where
  player : Player
  enemies : List Enemy
deriving DecidableEq

/-- The data the world code reads from `nannou::App`: mouse position,
left-button state, and the window rectangle. -/
structure App where
  mouseX : ℚ
  mouseY : ℚ
  leftDown : Bool
  rectLeft : ℚ
  rectRight : ℚ
  rectBottom : ℚ
  rectTop : ℚ
deriving DecidableEq

/-- The collision test inlined in `detect_collisions` (spec §4.1 `overlaps`):
true iff both the absolute x-difference and the absolute y-difference are
strictly below the sum of the radii. -/
def overlaps (p : Player) (e : Enemy) : Bool :=
  let radius := p.radius + e.radius
  let x := |p.position.x - e.position.x|
  let y := |p.position.y - e.position.y|
  decide (x < radius) && decide (y < radius)

/-- The effect of a detected collision on the player in `detect_collisions`:
color black, alive false. -/
def killPlayer (p : Player) : Player :=
  { p with color := ⟨0, 0, 0⟩, alive := false }

/-- One iteration of the `detect_collisions` loop body. -/
def collideStep (p : Player) (e : Enemy) : Player :=
  if overlaps p e then killPlayer p else p

/-- Rust `fn detect_collisions`: iterates over all enemies, killing the player on
each detected overlap. -/
def detect_collisions (w : World) : World :=
  { w with player := w.enemies.foldl collideStep w.player }

/-- Rust `fn world_boundary`: clamp a position to the window rectangle, in the
source's order (top, bottom, left, right). -/
def world_boundary (app : App) (p : Position) : Position :=
  let y1 := if p.y > app.rectTop then app.rectTop else p.y
  let y2 := if y1 < app.rectBottom then app.rectBottom else y1
  let x1 := if p.x < app.rectLeft then app.rectLeft else p.x
  let x2 := if x1 > app.rectRight then app.rectRight else x1
  ⟨x2, y2⟩

/-- Rust `fn handle_bounds`: both player and enemies are affected by the world
boundary. -/
def handle_bounds (app : App) (w : World) : World :=
  { player := { w.player with position := world_boundary app w.player.position }
    enemies := w.enemies.map fun e => { e with position := world_boundary app e.position } }

/-- The `gameplay` loop body for one enemy: each axis is reassigned a uniform
random value within `±1` of its current value.  Consumes draws `n` and `n+1`. -/
def enemyStep (g : Rng) (n : ℕ) (e : Enemy) : Enemy :=
  let x := randomRange (g n) (e.position.x - 1) (e.position.x + 1)
  let y := randomRange (g (n + 1)) (e.position.y - 1) (e.position.y + 1)
  { e with position := ⟨x, y⟩ }

/-- The `gameplay` enemy loop: each enemy consumes two draws, in list order. -/
def stepEnemies (g : Rng) (n : ℕ) : List Enemy → List Enemy
  | [] => []
  | e :: es => enemyStep g n e :: stepEnemies g (n + 2) es

/-- Rust `fn gameplay`: the player follows the mouse; every enemy random-walks. -/
def gameplay (g : Rng) (n : ℕ) (app : App) (w : World) : World :=
  { player := { w.player with position := ⟨app.mouseX, app.mouseY⟩ }
    enemies := stepEnemies g n w.enemies }

/-- Rust `fn enemy_spawn_position`: a random position with a minimum distance of
twice the player's radius from the player, on each axis independently.
Consumes draws `n`, `n+1` (x coin and value) and `n+2`, `n+3` (y). -/
def enemy_spawn_position (g : Rng) (n : ℕ) (player : Player) : Position :=
  let radius := player.radius * 2
  let size : ℚ := 512 / 2 * 0.80
  let x :=
    if randomRange (g n) 0 1 > 0.5 then
      randomRange (g (n + 1)) (-size) (player.position.x - radius)
    else
      randomRange (g (n + 1)) (player.position.x + radius) size
  let y :=
    if randomRange (g (n + 2)) 0 1 > 0.5 then
      randomRange (g (n + 3)) (-size) (player.position.y - radius)
    else
      randomRange (g (n + 3)) (player.position.y + radius) size
  ⟨x, y⟩

/-- The constant `num_enemies` of `setup_world`, 500. -/
def num_enemies : ℕ := 500

/-- The enemy-spawning loop of `setup_world`: `k` enemies, each taking the
default enemy with a fresh spawn position; each consumes four draws. -/
def spawnEnemies (g : Rng) (player : Player) (n : ℕ) : ℕ → List Enemy
  | 0 => []
  | k + 1 =>
      { Enemy.default with position := enemy_spawn_position g n player } ::
        spawnEnemies g player (n + 4) k

/-- Rust `fn setup_world`: default player plus 500 scattered enemies. -/
def setup_world (g : Rng) (n : ℕ) : World :=
  let player := Player.default
  { player := player, enemies := spawnEnemies g player n num_enemies }

/-- Rust `fn controls`: left click while dead replaces the world with a fresh one.
Returns the new world together with the advanced random cursor
(`setup_world` consumes `4 * num_enemies` draws). -/
def controls (g : Rng) (n : ℕ) (app : App) (w : World) : World × ℕ :=
  if app.leftDown && !w.player.alive then
    (setup_world g n, n + 4 * num_enemies)
  else (w, n)

/-- Rust `fn update`: the per-frame pipeline, controls, then, if the player is
alive, gameplay, collision detection and boundary handling. -/
def update (g : Rng) (n : ℕ) (app : App) (w : World) : World × ℕ :=
  let (w1, n1) := controls g n app w
  if w1.player.alive then
    let w2 := gameplay g n1 app w1
    let n2 := n1 + 2 * w1.enemies.length
    let w3 := detect_collisions w2
    let w4 := handle_bounds app w3
    (w4, n2)
  else (w1, n1)

/-- Iterated frames: `runFrames g apps n w k` applies `update` for frames
`0, 1, …, k-1`, frame `i` reading input `apps i`, threading the random
cursor. -/
def runFrames (g : Rng) (apps : ℕ → App) (n : ℕ) (w : World) : ℕ → World × ℕ
  | 0 => (w, n)
  | k + 1 =>
      update g (runFrames g apps n w k).2 (apps k) (runFrames g apps n w k).1

/-! ### Basic projection lemmas -/

/-- Projection: collision detection leaves the enemy list untouched. -/
@[simp] lemma detect_collisions_enemies (w : World) :
    (detect_collisions w).enemies = w.enemies := rfl

/-- Projection: collision detection folds the loop body over the enemies. -/
lemma detect_collisions_player (w : World) :
    (detect_collisions w).player = w.enemies.foldl collideStep w.player := rfl

/-- Projection: the player of a fresh world is the default player. -/
@[simp] lemma setup_world_player (g : Rng) (n : ℕ) :
    (setup_world g n).player = Player.default := rfl

/-- Projection: the enemies of a fresh world come from the spawning loop. -/
lemma setup_world_enemies (g : Rng) (n : ℕ) :
    (setup_world g n).enemies = spawnEnemies g Player.default n num_enemies := rfl

/-- Projection: gameplay moves the player to the mouse. -/
lemma gameplay_player (g : Rng) (n : ℕ) (app : App) (w : World) :
    (gameplay g n app w).player = { w.player with position := ⟨app.mouseX, app.mouseY⟩ } := rfl

/-- Projection: gameplay steps the enemies. -/
lemma gameplay_enemies (g : Rng) (n : ℕ) (app : App) (w : World) :
    (gameplay g n app w).enemies = stepEnemies g n w.enemies := rfl

/-- Projection: boundary handling clamps the player's position. -/
lemma handle_bounds_player_position (app : App) (w : World) :
    (handle_bounds app w).player.position = world_boundary app w.player.position := rfl

/-- Projection: boundary handling does not change the player's alive flag. -/
@[simp] lemma handle_bounds_player_alive (app : App) (w : World) :
    (handle_bounds app w).player.alive = w.player.alive := rfl

/-! ### Random-range bounds -/

/-- A uniform draw from a nonempty interval stays in the interval. -/
lemma randomRange_bounds (r lo hi : ℚ) (h0 : 0 ≤ r) (h1 : r < 1) (h : lo ≤ hi) :
    lo ≤ randomRange r lo hi ∧ randomRange r lo hi ≤ hi := by
  unfold randomRange
  constructor
  · nlinarith
  · nlinarith

/-- A uniform draw from a proper interval stays strictly below its right end. -/
lemma randomRange_lt_right (r lo hi : ℚ) (_h0 : 0 ≤ r) (h1 : r < 1) (h : lo < hi) :
    randomRange r lo hi < hi := by
  unfold randomRange
  nlinarith

/-! ### Collision-fold lemmas -/

/-- The collision loop body never changes the player's position or radius. -/
lemma collideStep_pos (p : Player) (e : Enemy) :
    (collideStep p e).position = p.position ∧ (collideStep p e).radius = p.radius := by
  unfold collideStep killPlayer
  split <;> exact ⟨rfl, rfl⟩

/-- The whole collision fold never changes the player's position or radius. -/
lemma collideFold_pos (es : List Enemy) (p : Player) :
    (es.foldl collideStep p).position = p.position ∧
    (es.foldl collideStep p).radius = p.radius := by
  induction es generalizing p with
  | nil => exact ⟨rfl, rfl⟩
  | cons e es ih =>
      rw [List.foldl_cons]
      exact ⟨(ih _).1.trans (collideStep_pos p e).1, (ih _).2.trans (collideStep_pos p e).2⟩

/-- If no enemy overlaps the player, the collision fold is the identity. -/
lemma collideFold_of_no_hit (es : List Enemy) (p : Player)
    (h : ∀ e ∈ es, overlaps p e = false) : es.foldl collideStep p = p := by
  induction es generalizing p with
  | nil => rfl
  | cons e es ih =>
      have he : overlaps p e = false := h e (List.mem_cons_self e es)
      have hstep : collideStep p e = p := by simp [collideStep, he]
      rw [List.foldl_cons, hstep]
      exact ih p fun x hx => h x (List.mem_cons_of_mem e hx)

/-- A dead, black player stays dead and black through the collision fold. -/
lemma collideFold_dead (es : List Enemy) (p : Player) (ha : p.alive = false)
    (hc : p.color = ⟨0, 0, 0⟩) :
    (es.foldl collideStep p).alive = false ∧
    (es.foldl collideStep p).color = ⟨0, 0, 0⟩ := by
  induction es generalizing p with
  | nil => exact ⟨ha, hc⟩
  | cons e es ih =>
      rw [List.foldl_cons]
      by_cases h : overlaps p e
      · have hstep : collideStep p e = killPlayer p := by simp [collideStep, h]
        rw [hstep]
        exact ih (killPlayer p) rfl rfl
      · have hstep : collideStep p e = p := by simp [collideStep, h]
        rw [hstep]
        exact ih p ha hc

/-- If some enemy overlaps the player, the collision fold kills the player and
turns it black. -/
lemma collideFold_hit (es : List Enemy) (p : Player)
    (h : ∃ e ∈ es, overlaps p e = true) :
    (es.foldl collideStep p).alive = false ∧
    (es.foldl collideStep p).color = ⟨0, 0, 0⟩ := by
  induction es generalizing p with
  | nil => simp at h
  | cons e es ih =>
      rw [List.foldl_cons]
      by_cases he : overlaps p e
      · have hstep : collideStep p e = killPlayer p := by simp [collideStep, he]
        rw [hstep]
        exact collideFold_dead es (killPlayer p) rfl rfl
      · have hstep : collideStep p e = p := by simp [collideStep, he]
        rw [hstep]
        apply ih
        rcases h with ⟨x, hx, ho⟩
        rcases List.mem_cons.mp hx with rfl | hmem
        · exact absurd ho he
        · exact ⟨x, hmem, ho⟩

/-- The Boolean overlap test, phrased as the spec's arithmetic condition. -/
lemma overlaps_iff (p : Player) (e : Enemy) :
    overlaps p e = true ↔
      |p.position.x - e.position.x| < p.radius + e.radius ∧
      |p.position.y - e.position.y| < p.radius + e.radius := by
  simp [overlaps]

/-! ### Concrete inputs used for witnesses and counterexamples -/

/-- A concrete random stream: every draw is `0`. -/
def g0 : Rng := fun _ => 0

/-- A concrete input state: mouse at `(7,7)`, left button held, the fixed
512-by-512 window rectangle centered at the origin. -/
def app0 : App :=
  { mouseX := 7, mouseY := 7, leftDown := true
    rectLeft := -256, rectRight := 256, rectBottom := -256, rectTop := 256 }

/-- The same input state with the left button released. -/
def app1 : App := { app0 with leftDown := false }

/-- A concrete world whose player has been killed. -/
def deadWorld : World :=
  { player := { Player.default with color := ⟨0, 0, 0⟩, alive := false }
    enemies := [{ Enemy.default with position := ⟨40, 40⟩ }] }

/-- The spec's example world: default player, one enemy at `(3,3)`. -/
def exampleWorld : World :=
  { player := Player.default
    enemies := [{ Enemy.default with position := ⟨3, 3⟩ }] }

/-! ### Claims -/

/-- Claim C1: for every world with a live player, after the
collision-detection step the player's alive flag is false and the player's
color is black iff some enemy has both absolute coordinate differences from
the player strictly below the sum of the two radii; when no enemy satisfies
this, the player's color and alive flag are unchanged. -/
theorem detect_collisions_kills_iff_overlap (w : World) (h : w.player.alive = true) :
    (((detect_collisions w).player.alive = false ∧
      (detect_collisions w).player.color = ⟨0, 0, 0⟩) ↔
      ∃ e ∈ w.enemies,
        |w.player.position.x - e.position.x| < w.player.radius + e.radius ∧
        |w.player.position.y - e.position.y| < w.player.radius + e.radius) ∧
    ((∀ e ∈ w.enemies,
        ¬(|w.player.position.x - e.position.x| < w.player.radius + e.radius ∧
          |w.player.position.y - e.position.y| < w.player.radius + e.radius)) →
      (detect_collisions w).player.color = w.player.color ∧
      (detect_collisions w).player.alive = w.player.alive) := by
  constructor
  · constructor
    · rintro ⟨ha, -⟩
      by_contra hno
      have hfalse : ∀ e ∈ w.enemies, overlaps w.player e = false := by
        intro e he
        simp only [Bool.eq_false_iff, ne_eq, overlaps_iff]
        intro hab
        exact hno ⟨e, he, hab⟩
      rw [detect_collisions_player, collideFold_of_no_hit w.enemies w.player hfalse, h] at ha
      exact Bool.noConfusion ha
    · rintro ⟨e, he, hab⟩
      rw [detect_collisions_player]
      exact collideFold_hit w.enemies w.player ⟨e, he, (overlaps_iff w.player e).mpr hab⟩
  · intro hno
    have hfalse : ∀ e ∈ w.enemies, overlaps w.player e = false := by
      intro e he
      simp only [Bool.eq_false_iff, ne_eq, overlaps_iff]
      exact hno e he
    rw [detect_collisions_player, collideFold_of_no_hit w.enemies w.player hfalse]
    exact ⟨rfl, rfl⟩

/-- Witness for C1 at the spec's example: default player, one enemy at
`(3,3)`. -/
theorem detect_collisions_kills_iff_overlap_witness :
    exampleWorld.player.alive = true ∧
    ((((detect_collisions exampleWorld).player.alive = false ∧
      (detect_collisions exampleWorld).player.color = ⟨0, 0, 0⟩) ↔
      ∃ e ∈ exampleWorld.enemies,
        |exampleWorld.player.position.x - e.position.x| <
          exampleWorld.player.radius + e.radius ∧
        |exampleWorld.player.position.y - e.position.y| <
          exampleWorld.player.radius + e.radius) ∧
    ((∀ e ∈ exampleWorld.enemies,
        ¬(|exampleWorld.player.position.x - e.position.x| <
            exampleWorld.player.radius + e.radius ∧
          |exampleWorld.player.position.y - e.position.y| <
            exampleWorld.player.radius + e.radius)) →
      (detect_collisions exampleWorld).player.color = exampleWorld.player.color ∧
      (detect_collisions exampleWorld).player.alive = exampleWorld.player.alive)) :=
  ⟨rfl, detect_collisions_kills_iff_overlap exampleWorld rfl⟩

/-- Claim C6: for every position and every arena rectangle with
left at most right and bottom at most top, the clamped position lies in the
rectangle. -/
theorem world_boundary_clamps (app : App) (p : Position)
    (h1 : app.rectLeft ≤ app.rectRight) (h2 : app.rectBottom ≤ app.rectTop) :
    app.rectLeft ≤ (world_boundary app p).x ∧ (world_boundary app p).x ≤ app.rectRight ∧
    app.rectBottom ≤ (world_boundary app p).y ∧ (world_boundary app p).y ≤ app.rectTop := by
  simp only [world_boundary]
  split_ifs <;> refine ⟨?_, ?_, ?_, ?_⟩ <;> linarith

/-- Witness for C6 at a concrete out-of-bounds position. -/
theorem world_boundary_clamps_witness :
    app0.rectLeft ≤ app0.rectRight ∧ app0.rectBottom ≤ app0.rectTop ∧
    (app0.rectLeft ≤ (world_boundary app0 ⟨300, -300⟩).x ∧
     (world_boundary app0 ⟨300, -300⟩).x ≤ app0.rectRight ∧
     app0.rectBottom ≤ (world_boundary app0 ⟨300, -300⟩).y ∧
     (world_boundary app0 ⟨300, -300⟩).y ≤ app0.rectTop) :=
  ⟨by norm_num [app0], by norm_num [app0],
    world_boundary_clamps app0 ⟨300, -300⟩ (by norm_num [app0]) (by norm_num [app0])⟩

/-- Claim C9: the default constructors yield exactly the documented constant
values — player at the origin, radius 5, white, alive; enemy at the origin,
radius 5, red, alive. -/
theorem defaults_values :
    Player.default.position = ⟨0, 0⟩ ∧ Player.default.radius = 5 ∧
    Player.default.color = ⟨255, 255, 255⟩ ∧ Player.default.alive = true ∧
    Enemy.default.position = ⟨0, 0⟩ ∧ Enemy.default.radius = 5 ∧
    Enemy.default.color = ⟨255, 0, 0⟩ ∧ Enemy.default.alive = true :=
  ⟨rfl, rfl, rfl, rfl, rfl, rfl, rfl, rfl⟩

/-- Helper: a frame with a dead player and the left button up is a no-op. -/
lemma update_dead_stationary (g : Rng) (n : ℕ) (app : App) (w : World)
    (hl : app.leftDown = false) (ha : w.player.alive = false) :
    update g n app w = (w, n) := by
  simp [update, controls, hl, ha]

/-- Claim C3: for every world in which the player is dead and the left button
is not pressed, `update` leaves the world (and the random cursor) entirely
unchanged: no movement, no collision detection, no boundary clamping. -/
theorem update_dead_no_click_unchanged (g : Rng) (n : ℕ) (app : App) (w : World)
    (hl : app.leftDown = false) (ha : w.player.alive = false) :
    update g n app w = (w, n) :=
  update_dead_stationary g n app w hl ha

/-- Witness for C3 at a concrete dead world with the button released. -/
theorem update_dead_no_click_unchanged_witness :
    app1.leftDown = false ∧ deadWorld.player.alive = false ∧
    update g0 0 app1 deadWorld = (deadWorld, 0) :=
  ⟨rfl, rfl, update_dead_no_click_unchanged g0 0 app1 deadWorld rfl rfl⟩

/-- Claim C8: once the player's alive flag is false it remains false across
every subsequent `update` call as long as no frame presses the left button;
and a single `update` step can only revive a dead player when the left button
is pressed (the whole-world reset). -/
theorem dead_stays_dead_until_reset (g : Rng) (apps : ℕ → App) (n : ℕ) (w : World)
    (k : ℕ) (ha : w.player.alive = false)
    (hk : ∀ i < k, (apps i).leftDown = false) :
    (runFrames g apps n w k).1.player.alive = false ∧
    (∀ (m : ℕ) (app : App) (w1 : World), w1.player.alive = false →
      (update g m app w1).1.player.alive = true → app.leftDown = true) := by
  constructor
  · induction k with
    | zero => exact ha
    | succ k ih =>
        have hk' : ∀ i < k, (apps i).leftDown = false :=
          fun i hi => hk i (Nat.lt_succ_of_lt hi)
        have h1 := ih hk'
        have hstep := update_dead_stationary g (runFrames g apps n w k).2 (apps k)
          (runFrames g apps n w k).1 (hk k (Nat.lt_succ_self k)) h1
        rw [runFrames, hstep]
        exact h1
  · intro m app w1 hdead halive
    by_cases hl : app.leftDown
    · exact hl
    · rw [update_dead_stationary g m app w1 (Bool.eq_false_iff.mpr hl) hdead] at halive
      rw [hdead] at halive
      exact Bool.noConfusion halive

/-- Witness for C8: three frames with the button up on a concrete dead
world. -/
theorem dead_stays_dead_until_reset_witness :
    deadWorld.player.alive = false ∧ (∀ i < 3, ((fun _ => app1) i : App).leftDown = false) ∧
    ((runFrames g0 (fun _ => app1) 0 deadWorld 3).1.player.alive = false ∧
     (∀ (m : ℕ) (app : App) (w1 : World), w1.player.alive = false →
       (update g0 m app w1).1.player.alive = true → app.leftDown = true)) :=
  ⟨rfl, fun _ _ => rfl,
    dead_stays_dead_until_reset g0 (fun _ => app1) 0 deadWorld 3 rfl (fun _ _ => rfl)⟩

/-! ### Spawn-policy lemmas -/

/-- Either branch of the spawn sampler for a coordinate of the default player
(coordinate `0`, radius `5`) lands at least `10` from the origin and within
the `204.8` safety bound. -/
lemma spawn_interval_clear (v : ℚ) (h0 : 0 ≤ v) (h1 : v < 1) (c : Prop) [Decidable c] :
    10 ≤ |(if c then randomRange v (-(512 / 2 * 0.80)) (0 - 5 * 2)
           else randomRange v (0 + 5 * 2) (512 / 2 * 0.80))| ∧
    |(if c then randomRange v (-(512 / 2 * 0.80)) (0 - 5 * 2)
      else randomRange v (0 + 5 * 2) (512 / 2 * 0.80))| ≤ 512 / 2 * 0.80 := by
  split_ifs
  · have hb := randomRange_bounds v (-(512 / 2 * 0.80)) (0 - 5 * 2) h0 h1 (by norm_num)
    constructor
    · rw [le_abs]
      right
      linarith [hb.2]
    · rw [abs_le]
      constructor <;> linarith [hb.1, hb.2]
  · have hb := randomRange_bounds v (0 + 5 * 2) (512 / 2 * 0.80) h0 h1 (by norm_num)
    constructor
    · rw [le_abs]
      left
      linarith [hb.1]
    · rw [abs_le]
      constructor <;> linarith [hb.1, hb.2]

/-- Both coordinates of a spawn position for the default player are at least
`10` from the origin and within the `204.8` safety bound. -/
lemma enemy_spawn_position_default_clear (g : Rng) (hg : RngOk g) (n : ℕ) :
    (10 ≤ |(enemy_spawn_position g n Player.default).x| ∧
     |(enemy_spawn_position g n Player.default).x| ≤ 512 / 2 * 0.80) ∧
    (10 ≤ |(enemy_spawn_position g n Player.default).y| ∧
     |(enemy_spawn_position g n Player.default).y| ≤ 512 / 2 * 0.80) := by
  obtain ⟨hx0, hx1⟩ := hg (n + 1)
  obtain ⟨hy0, hy1⟩ := hg (n + 3)
  exact ⟨spawn_interval_clear (g (n + 1)) hx0 hx1 (randomRange (g n) 0 1 > 0.5),
         spawn_interval_clear (g (n + 3)) hy0 hy1 (randomRange (g (n + 2)) 0 1 > 0.5)⟩

/-- Every enemy built by the spawning loop is a default enemy placed at some
spawn position. -/
lemma spawnEnemies_mem (g : Rng) (p : Player) :
    ∀ (k n : ℕ) (e : Enemy), e ∈ spawnEnemies g p n k →
      ∃ m, e = { Enemy.default with position := enemy_spawn_position g m p } := by
  intro k
  induction k with
  | zero =>
      intro n e he
      simp [spawnEnemies] at he
  | succ k ih =>
      intro n e he
      rw [spawnEnemies] at he
      rcases List.mem_cons.mp he with rfl | hm
      · exact ⟨n, rfl⟩
      · exact ih (n + 4) e hm

/-- The spawning loop produces exactly the requested number of enemies. -/
lemma spawnEnemies_length (g : Rng) (p : Player) :
    ∀ (k n : ℕ), (spawnEnemies g p n k).length = k := by
  intro k
  induction k with
  | zero => intro n; rfl
  | succ k ih =>
      intro n
      rw [spawnEnemies, List.length_cons, ih]

/-- Helper: the spawn-clearance facts for every enemy of a fresh world. -/
lemma setup_world_spawn_clear (g : Rng) (n : ℕ) (hg : RngOk g) :
    ∀ e ∈ (setup_world g n).enemies,
      2 * Player.default.radius ≤ |Player.default.position.x - e.position.x| ∧
      2 * Player.default.radius ≤ |Player.default.position.y - e.position.y| ∧
      |e.position.x| ≤ 512 / 2 * 0.80 ∧ |e.position.y| ≤ 512 / 2 * 0.80 ∧
      overlaps Player.default e = false := by
  intro e he
  rw [setup_world_enemies] at he
  obtain ⟨m, rfl⟩ := spawnEnemies_mem g Player.default num_enemies n e he
  obtain ⟨⟨hx1, hx2⟩, hy1, hy2⟩ := enemy_spawn_position_default_clear g hg m
  have hxd : |Player.default.position.x -
      (enemy_spawn_position g m Player.default).x| =
      |(enemy_spawn_position g m Player.default).x| := by
    show |0 - _| = _
    rw [zero_sub, abs_neg]
  have hyd : |Player.default.position.y -
      (enemy_spawn_position g m Player.default).y| =
      |(enemy_spawn_position g m Player.default).y| := by
    show |0 - _| = _
    rw [zero_sub, abs_neg]
  refine ⟨?_, ?_, hx2, hy2, ?_⟩
  · rw [hxd]
    norm_num [Player.default]
    exact hx1
  · rw [hyd]
    norm_num [Player.default]
    exact hy1
  · simp only [overlaps, Bool.and_eq_false_iff, decide_eq_false_iff_not, not_lt]
    left
    show Player.default.radius + Enemy.default.radius ≤
      |Player.default.position.x - (enemy_spawn_position g m Player.default).x|
    rw [hxd]
    have : Player.default.radius + Enemy.default.radius = 10 := by
      norm_num [Player.default, Enemy.default]
    rw [this]
    exact hx1

/-- Claim C4: in every freshly constructed world, each enemy's position is on
each axis at least twice the player's radius away from the default player's
coordinate, lies within the `204.8` safety bound, and does not overlap the
player under the bounding-box test. -/
theorem setup_world_no_spawn_overlap (g : Rng) (n : ℕ) (hg : RngOk g) :
    ∀ e ∈ (setup_world g n).enemies,
      2 * Player.default.radius ≤ |Player.default.position.x - e.position.x| ∧
      2 * Player.default.radius ≤ |Player.default.position.y - e.position.y| ∧
      |e.position.x| ≤ 512 / 2 * 0.80 ∧ |e.position.y| ≤ 512 / 2 * 0.80 ∧
      overlaps Player.default e = false :=
  setup_world_spawn_clear g n hg

/-- Witness for C4 at the all-zero random stream. -/
theorem setup_world_no_spawn_overlap_witness :
    RngOk g0 ∧
    (∀ e ∈ (setup_world g0 0).enemies,
      2 * Player.default.radius ≤ |Player.default.position.x - e.position.x| ∧
      2 * Player.default.radius ≤ |Player.default.position.y - e.position.y| ∧
      |e.position.x| ≤ 512 / 2 * 0.80 ∧ |e.position.y| ≤ 512 / 2 * 0.80 ∧
      overlaps Player.default e = false) :=
  ⟨fun _ => ⟨le_refl 0, by norm_num [g0]⟩,
    setup_world_no_spawn_overlap g0 0 (fun _ => ⟨le_refl 0, by norm_num [g0]⟩)⟩

/-! ### Movement lemmas -/

/-- Projection: the x coordinate after one random-walk step. -/
lemma enemyStep_x (g : Rng) (n : ℕ) (e : Enemy) :
    (enemyStep g n e).position.x =
      randomRange (g n) (e.position.x - 1) (e.position.x + 1) := rfl

/-- Projection: the y coordinate after one random-walk step. -/
lemma enemyStep_y (g : Rng) (n : ℕ) (e : Enemy) :
    (enemyStep g n e).position.y =
      randomRange (g (n + 1)) (e.position.y - 1) (e.position.y + 1) := rfl

/-- One random-walk step moves each coordinate by at most one unit. -/
lemma enemyStep_close (g : Rng) (hg : RngOk g) (n : ℕ) (e : Enemy) :
    |(enemyStep g n e).position.x - e.position.x| ≤ 1 ∧
    |(enemyStep g n e).position.y - e.position.y| ≤ 1 := by
  obtain ⟨hx0, hx1⟩ := hg n
  obtain ⟨hy0, hy1⟩ := hg (n + 1)
  have hx := randomRange_bounds (g n) (e.position.x - 1) (e.position.x + 1) hx0 hx1
    (by linarith)
  have hy := randomRange_bounds (g (n + 1)) (e.position.y - 1) (e.position.y + 1) hy0 hy1
    (by linarith)
  constructor
  · rw [enemyStep_x, abs_le]
    exact ⟨by linarith [hx.1], by linarith [hx.2]⟩
  · rw [enemyStep_y, abs_le]
    exact ⟨by linarith [hy.1], by linarith [hy.2]⟩

/-- The enemy loop of `gameplay` relates each enemy to its stepped version:
both coordinates move by at most one unit. -/
lemma stepEnemies_forall2 (g : Rng) (hg : RngOk g) :
    ∀ (es : List Enemy) (n : ℕ),
      List.Forall₂ (fun e e' : Enemy =>
          |e'.position.x - e.position.x| ≤ 1 ∧ |e'.position.y - e.position.y| ≤ 1)
        es (stepEnemies g n es) := by
  intro es
  induction es with
  | nil => intro n; exact List.Forall₂.nil
  | cons e es ih =>
      intro n
      rw [stepEnemies]
      exact List.Forall₂.cons (enemyStep_close g hg n e) (ih (n + 2))

/-- Claim C7: for every world with a live player, the movement step sets the
player's position exactly to the pointer position, and, for every draw of the
random source, each enemy's new coordinates lie within one unit of its
previous coordinates. -/
theorem gameplay_moves (g : Rng) (n : ℕ) (app : App) (w : World)
    (hg : RngOk g) (_ha : w.player.alive = true) :
    (gameplay g n app w).player.position = ⟨app.mouseX, app.mouseY⟩ ∧
    List.Forall₂ (fun e e' : Enemy =>
        |e'.position.x - e.position.x| ≤ 1 ∧ |e'.position.y - e.position.y| ≤ 1)
      w.enemies (gameplay g n app w).enemies := by
  refine ⟨rfl, ?_⟩
  rw [gameplay_enemies]
  exact stepEnemies_forall2 g hg w.enemies n

/-- Witness for C7 at the all-zero stream and the example world. -/
theorem gameplay_moves_witness :
    RngOk g0 ∧ exampleWorld.player.alive = true ∧
    ((gameplay g0 0 app1 exampleWorld).player.position = ⟨app1.mouseX, app1.mouseY⟩ ∧
     List.Forall₂ (fun e e' : Enemy =>
         |e'.position.x - e.position.x| ≤ 1 ∧ |e'.position.y - e.position.y| ≤ 1)
       exampleWorld.enemies (gameplay g0 0 app1 exampleWorld).enemies) :=
  ⟨fun _ => ⟨le_refl 0, by norm_num [g0]⟩, rfl,
    gameplay_moves g0 0 app1 exampleWorld (fun _ => ⟨le_refl 0, by norm_num [g0]⟩) rfl⟩

/-! ### Reset lemmas -/

/-- Helper: a left click on a dead player swaps in a fresh world and advances
the random cursor by the draws `setup_world` consumed. -/
lemma controls_reset (g : Rng) (n : ℕ) (app : App) (w : World)
    (hl : app.leftDown = true) (ha : w.player.alive = false) :
    controls g n app w = (setup_world g n, n + 4 * num_enemies) := by
  simp [controls, hl, ha]

/-- Helper: after a reset the fresh player is alive, so the rest of the
frame's pipeline runs on the just-created world before `update` returns. -/
lemma update_reset (g : Rng) (n : ℕ) (app : App) (w : World)
    (hl : app.leftDown = true) (ha : w.player.alive = false) :
    update g n app w =
      (handle_bounds app (detect_collisions
        (gameplay g (n + 4 * num_enemies) app (setup_world g n))),
       n + 4 * num_enemies + 2 * (setup_world g n).enemies.length) := by
  unfold update
  rw [controls_reset g n app w hl ha]
  rfl

/-- Projection: gameplay leaves the player at the mouse position. -/
lemma gameplay_player_position (g : Rng) (n : ℕ) (app : App) (w : World) :
    (gameplay g n app w).player.position = ⟨app.mouseX, app.mouseY⟩ := rfl

/-- Collision detection never moves the player. -/
lemma detect_collisions_player_position (w : World) :
    (detect_collisions w).player.position = w.player.position := by
  rw [detect_collisions_player]
  exact (collideFold_pos w.enemies w.player).1

/-- Claim C10: on a reset frame (left button pressed, dead player), the
freshly constructed world is itself simulated in the same `update` call: the
result is the pipeline applied to the fresh world, the movement step
overwrites the fresh player's position with the pointer position, and every
new enemy takes one random-walk step. -/
theorem update_reset_runs_pipeline (g : Rng) (n : ℕ) (app : App) (w : World)
    (hl : app.leftDown = true) (ha : w.player.alive = false) :
    (update g n app w).1 =
      handle_bounds app (detect_collisions
        (gameplay g (n + 4 * num_enemies) app (setup_world g n))) ∧
    (gameplay g (n + 4 * num_enemies) app (setup_world g n)).player.position =
      ⟨app.mouseX, app.mouseY⟩ ∧
    (gameplay g (n + 4 * num_enemies) app (setup_world g n)).enemies =
      stepEnemies g (n + 4 * num_enemies) (setup_world g n).enemies := by
  refine ⟨?_, rfl, rfl⟩
  rw [update_reset g n app w hl ha]

/-- Witness for C10 at a concrete reset frame. -/
theorem update_reset_runs_pipeline_witness :
    app0.leftDown = true ∧ deadWorld.player.alive = false ∧
    ((update g0 0 app0 deadWorld).1 =
      handle_bounds app0 (detect_collisions
        (gameplay g0 (0 + 4 * num_enemies) app0 (setup_world g0 0))) ∧
     (gameplay g0 (0 + 4 * num_enemies) app0 (setup_world g0 0)).player.position =
       ⟨app0.mouseX, app0.mouseY⟩ ∧
     (gameplay g0 (0 + 4 * num_enemies) app0 (setup_world g0 0)).enemies =
       stepEnemies g0 (0 + 4 * num_enemies) (setup_world g0 0).enemies) :=
  ⟨rfl, rfl, update_reset_runs_pipeline g0 0 app0 deadWorld rfl rfl⟩

/-- Counterexample to claim C2 as stated: on a reset frame the reset is not
the frame's only effect.  At the concrete input below, the player of the
world returned by `update` sits at the mouse position `(7,7)`, not at the
fresh world's spawn default `(0,0)`. -/
theorem update_reset_not_only_effect_cex :
    (update g0 0 app0 deadWorld).1.player.position = ⟨7, 7⟩ ∧
    (setup_world g0 0).player.position = ⟨0, 0⟩ := by
  constructor
  · have h1 : (update g0 0 app0 deadWorld).1 =
        handle_bounds app0 (detect_collisions
          (gameplay g0 (0 + 4 * num_enemies) app0 (setup_world g0 0))) := by
      rw [update_reset g0 0 app0 deadWorld rfl rfl]
    rw [h1, handle_bounds_player_position, detect_collisions_player_position,
      gameplay_player_position]
    decide
  · rfl

/-- Claim C2 (amended): on a reset frame the world is replaced by a freshly
constructed one, and the remaining per-frame steps — movement, collision
detection and boundary clamping — are then applied to the just-created world
within the same `update` call; the reset is not the frame's only effect. -/
theorem update_reset_then_pipeline (g : Rng) (n : ℕ) (app : App) (w : World)
    (hl : app.leftDown = true) (ha : w.player.alive = false) :
    update g n app w =
      (handle_bounds app (detect_collisions
        (gameplay g (n + 4 * num_enemies) app (setup_world g n))),
       n + 4 * num_enemies + 2 * (setup_world g n).enemies.length) :=
  update_reset g n app w hl ha

/-- Witness for the amended C2 at a concrete reset frame. -/
theorem update_reset_then_pipeline_witness :
    app0.leftDown = true ∧ deadWorld.player.alive = false ∧
    update g0 0 app0 deadWorld =
      (handle_bounds app0 (detect_collisions
        (gameplay g0 (0 + 4 * num_enemies) app0 (setup_world g0 0))),
       0 + 4 * num_enemies + 2 * (setup_world g0 0).enemies.length) :=
  ⟨rfl, rfl, update_reset_then_pipeline g0 0 app0 deadWorld rfl rfl⟩

/-! ### Evaluation lemmas for the all-zero stream -/

/-- With the all-zero stream, every spawn position for the default player is
`(10, 10)`: both coins come up `0`, picking the upper interval, and the draw
lands on its left end `0 + 5 * 2 = 10`. -/
lemma enemy_spawn_position_g0 (n : ℕ) :
    enemy_spawn_position g0 n Player.default = ⟨10, 10⟩ := by
  norm_num [enemy_spawn_position, g0, randomRange, Player.default]

/-- With the all-zero stream, every spawned enemy is the default enemy at
`(10, 10)`. -/
lemma spawnEnemies_g0_mem (k n : ℕ) (e : Enemy)
    (he : e ∈ spawnEnemies g0 Player.default n k) :
    e = { Enemy.default with position := ⟨10, 10⟩ } := by
  obtain ⟨m, rfl⟩ := spawnEnemies_mem g0 Player.default k n e he
  rw [enemy_spawn_position_g0]

/-- With the all-zero stream, a random-walk step from `(10, 10)` lands on
`(9, 9)`: each axis draws the left end of its interval. -/
lemma enemyStep_g0 (n : ℕ) :
    enemyStep g0 n { Enemy.default with position := ⟨10, 10⟩ } =
      { Enemy.default with position := ⟨9, 9⟩ } := by
  norm_num [enemyStep, g0, randomRange, Enemy.default]

/-- With the all-zero stream, stepping a list of enemies all at `(10, 10)`
puts every one of them at `(9, 9)`. -/
lemma stepEnemies_g0_mem :
    ∀ (es : List Enemy) (n : ℕ),
      (∀ e ∈ es, e = { Enemy.default with position := ⟨10, 10⟩ }) →
      ∀ e' ∈ stepEnemies g0 n es, e' = { Enemy.default with position := ⟨9, 9⟩ } := by
  intro es
  induction es with
  | nil =>
      intro n _ e' he'
      simp [stepEnemies] at he'
  | cons e es ih =>
      intro n h e' he'
      rw [stepEnemies] at he'
      rcases List.mem_cons.mp he' with rfl | hm
      · rw [h e (List.mem_cons_self e es), enemyStep_g0]
      · exact ih (n + 2) (fun x hx => h x (List.mem_cons_of_mem e hx)) e' hm

/-- The enemy loop of `gameplay` preserves the number of enemies. -/
lemma stepEnemies_length (g : Rng) :
    ∀ (es : List Enemy) (n : ℕ), (stepEnemies g n es).length = es.length := by
  intro es
  induction es with
  | nil => intro n; rfl
  | cons e es ih =>
      intro n
      rw [stepEnemies, List.length_cons, List.length_cons, ih]

/-- Counterexample to claim C5 as stated: with the left button pressed on a
dead world, immediately after `update` returns the player's alive flag can be
false again — the fresh enemies random-walk toward the mouse and a collision
is detected in the very same frame. -/
theorem update_reset_alive_cex :
    (update g0 0 app0 deadWorld).1.player.alive = false := by
  have h1 : (update g0 0 app0 deadWorld).1 =
      handle_bounds app0 (detect_collisions
        (gameplay g0 (0 + 4 * num_enemies) app0 (setup_world g0 0))) := by
    rw [update_reset g0 0 app0 deadWorld rfl rfl]
  rw [h1, handle_bounds_player_alive, detect_collisions_player]
  refine (collideFold_hit _ _ ?_).1
  rw [gameplay_enemies, setup_world_enemies]
  have hne : stepEnemies g0 (0 + 4 * num_enemies)
      (spawnEnemies g0 Player.default 0 num_enemies) ≠ [] := by
    intro hnil
    have hlen := stepEnemies_length g0 (spawnEnemies g0 Player.default 0 num_enemies)
      (0 + 4 * num_enemies)
    rw [hnil, spawnEnemies_length] at hlen
    simp [num_enemies] at hlen
  obtain ⟨e, he⟩ := List.exists_mem_of_ne_nil _ hne
  refine ⟨e, he, ?_⟩
  rw [stepEnemies_g0_mem _ _ (fun x hx => spawnEnemies_g0_mem _ _ x hx) e he]
  have hp : (gameplay g0 (0 + 4 * num_enemies) app0 (setup_world g0 0)).player =
      { Player.default with position := ⟨7, 7⟩ } := by
    rw [gameplay_player, setup_world_player]
    rfl
  rw [hp, overlaps_iff]
  norm_num [Player.default, Enemy.default]

/-- Claim C5 (amended): immediately after the reset performed by `controls`
on a left click while dead — before the rest of the frame's pipeline runs —
the player's alive flag is true, the enemy collection has exactly 500
elements, and every enemy's position is on each axis at least twice the
player's radius away from the default player's coordinate. -/
theorem controls_reset_fresh_invariants (g : Rng) (n : ℕ) (app : App) (w : World)
    (hg : RngOk g) (hl : app.leftDown = true) (ha : w.player.alive = false) :
    (controls g n app w).1.player.alive = true ∧
    (controls g n app w).1.enemies.length = 500 ∧
    ∀ e ∈ (controls g n app w).1.enemies,
      2 * Player.default.radius ≤ |Player.default.position.x - e.position.x| ∧
      2 * Player.default.radius ≤ |Player.default.position.y - e.position.y| := by
  rw [controls_reset g n app w hl ha]
  refine ⟨rfl, ?_, ?_⟩
  · show (setup_world g n).enemies.length = 500
    rw [setup_world_enemies, spawnEnemies_length]
    rfl
  · show ∀ e ∈ (setup_world g n).enemies, _
    intro e he
    obtain ⟨hx, hy, -, -, -⟩ := setup_world_spawn_clear g n hg e he
    exact ⟨hx, hy⟩

/-- Witness for the amended C5 at a concrete reset frame. -/
theorem controls_reset_fresh_invariants_witness :
    RngOk g0 ∧ app0.leftDown = true ∧ deadWorld.player.alive = false ∧
    ((controls g0 0 app0 deadWorld).1.player.alive = true ∧
     (controls g0 0 app0 deadWorld).1.enemies.length = 500 ∧
     ∀ e ∈ (controls g0 0 app0 deadWorld).1.enemies,
       2 * Player.default.radius ≤ |Player.default.position.x - e.position.x| ∧
       2 * Player.default.radius ≤ |Player.default.position.y - e.position.y|) :=
  ⟨fun _ => ⟨le_refl 0, by norm_num [g0]⟩, rfl, rfl,
    controls_reset_fresh_invariants g0 0 app0 deadWorld
      (fun _ => ⟨le_refl 0, by norm_num [g0]⟩) rfl rfl⟩

end CreativeCoding
